import Mathlib

/-!
Shallow embedding of `src/web/app.js` (TubeKit browser client).

JavaScript values that flow through the client (JSON payloads, DOM text
assignments, feed items) are modelled by `JSValue`.  The browser platform
pieces — `new URL(...)` parsing, `JSON.parse`, `Date` parsing and locale
formatting, and the network transport — are external collaborators and are
modelled as oracle inputs; everything the file `app.js` itself computes is
translated directly into total Lean functions below.
-/

set_option autoImplicit false

namespace TubeKit

/-- Model of a JavaScript value as observed by the client code. -/
inductive JSValue where
  | undefined
  | null
  | bool (b : Bool)
  | num (n : Int)
  | str (s : String)
  | arr (xs : List JSValue)
  | obj (fields : List (String × JSValue))

/-- JavaScript truthiness for `JSValue`. -/
def truthy : JSValue → Bool
  | .undefined => false
  | .null => false
  | .bool b => b
  | .num n => !(n == 0)
  | .str s => !(s == "")
  | .arr _ => true
  | .obj _ => true

/-- Property read with optional chaining semantics (`x?.k`): reading a field
off `null`, `undefined`, or any non-object yields `undefined`. -/
def jsGet : JSValue → String → JSValue
  | .obj fields, k => ((fields.find? (fun p => p.1 == k)).map Prod.snd).getD .undefined
  | _, _ => .undefined

/-- The JavaScript `a || b` short-circuit on values. -/
def jsOr (a b : JSValue) : JSValue :=
  if truthy a then a else b

/-- Array elements stringify with `null` and `undefined` as the empty
string when an array is joined. -/
def jsToString : JSValue → String
  | .undefined => "undefined"
  | .null => "null"
  | .bool true => "true"
  | .bool false => "false"
  | .num n => toString n
  | .str s => s
  | .arr xs =>
      String.intercalate "," (xs.attach.map (fun p =>
        match p with
        | ⟨.undefined, _⟩ => ""
        | ⟨.null, _⟩ => ""
        | ⟨v, _⟩ => jsToString v))
  | .obj _ => "[object Object]"

/-- The character class `[a-zA-Z0-9_-]` used by all three id patterns. -/
def isIdChar (c : Char) : Bool :=
  c.isAlphanum || c == '_' || c == '-'

/-- The anchored VideoId pattern of `app.js` line 13: exactly 11 characters
from `[a-zA-Z0-9_-]`. -/
def isVideoId (s : String) : Bool :=
  s.length == 11 && s.data.all isIdChar

/-- The WhiteSpace and LineTerminator set trimmed by `String.prototype.trim`. -/
def isJSWhitespace (c : Char) : Bool :=
  c == ' ' || c == '\t' || c == '\n' || c == '\r' ||
  c == '\x0b' || c == '\x0c' || c == '\u00a0' || c == '\u1680' ||
  ('\u2000' ≤ c && c ≤ '\u200a') ||
  c == '\u2028' || c == '\u2029' || c == '\u202f' || c == '\u205f' ||
  c == '\u3000' || c == '\ufeff'

/-- Model of `String.prototype.trim`. -/
def jsTrim (s : String) : String :=
  String.mk (((s.data.dropWhile isJSWhitespace).reverse.dropWhile isJSWhitespace).reverse)

/-- The pieces of a parsed `URL` object that `extractVideoId` reads.
Producing one from a string is the platform URL parser, which is an
oracle in this embedding. -/
structure URL where
  hostname : String
  pathname : String
  searchParams : List (String × String)

/-- Model of `URLSearchParams.get`: value of the first pair with the given name. -/
def spGet (q : List (String × String)) (k : String) : Option String :=
  (q.find? (fun p => p.1 == k)).map Prod.snd

/-- Model of `URLSearchParams.delete`: remove every pair with the given name. -/
def spDelete (q : List (String × String)) (k : String) : List (String × String) :=
  q.filter (fun p => !(p.1 == k))

/-- Model of `URLSearchParams.set`: overwrite the first pair with the given name and
drop the rest, or append at the end when the name is absent. -/
def spSet : List (String × String) → String → String → List (String × String)
  | [], k, v => [(k, v)]
  | p :: rest, k, v =>
      if p.1 == k then (k, v) :: spDelete rest k else p :: spSet rest k v

/-- Model of `hostname.replace(/^www\./, "")` on line 23: strip one leading `www.`. -/
def stripWWW (h : String) : String :=
  if h.data.take 4 = ['w', 'w', 'w', '.'] then String.mk (h.data.drop 4) else h

/-- JavaScript `String.prototype.endsWith` with one argument. -/
def strEndsWith (s suffix : String) : Bool :=
  suffix.data.isSuffixOf s.data

/-- JavaScript `String.prototype.split` with a one-character separator:
`""` gives `[""]`, and separators at the ends give empty pieces. -/
def splitOnChar (sep : Char) : List Char → List (List Char)
  | [] => [[]]
  | c :: cs =>
      if c = sep then [] :: splitOnChar sep cs
      else
        match splitOnChar sep cs with
        | [] => [[c]]
        | g :: gs => (c :: g) :: gs

/-- Model of `pathname.split("/").filter(Boolean)`: path segments, empties removed. -/
def pathSegs (p : String) : List String :=
  ((splitOnChar '/' p.data).map String.mk).filter (fun s => !(s == ""))

/-- Lines 33-37: the `shorts` / `embed` path fallback of the
`youtube.com` branch. -/
def ytPathBranch (u : URL) : Option String :=
  let parts := pathSegs u.pathname
  let maybe := (parts.get? 1).getD ""
  if (parts.get? 0).getD "" = "shorts" ∨ (parts.get? 0).getD "" = "embed" then
    if isVideoId maybe then some maybe else none
  else none

/-- Lines 23-40 of `extractVideoId`: the logic applied to a successfully
parsed URL. -/
def extractVideoIdFromURL (u : URL) : Option String :=
  let host := stripWWW u.hostname
  if host = "youtu.be" then
    let id := ((pathSegs u.pathname).get? 0).getD ""
    if isVideoId id then some id else none
  else if strEndsWith host "youtube.com" then
    match spGet u.searchParams "v" with
    | some v => if !(v == "") && isVideoId v then some v else ytPathBranch u
    | none => ytPathBranch u
  else none

/-- Model of `extractVideoId` (lines 9-41).  `parse` is the platform URL parser
(`new URL`), returning `none` where the constructor would throw; inputs
`null` and `undefined` are the `none` case of the argument, which
`(input || "")` coerces to the empty string. -/
def extractVideoId (parse : String → Option URL) (input : Option String) : Option String :=
  let raw := jsTrim (input.getD "")
  if raw = "" then none
  else if isVideoId raw then some raw
  else
    match parse raw with
    | none => none
    | some url => extractVideoIdFromURL url

/-- Attempted match of `/UC[a-zA-Z0-9_-]{22}/` at the head of the text. -/
def channelAt : List Char → Option String
  | 'U' :: 'C' :: rest =>
      let body := rest.take 22
      if body.length == 22 && body.all isIdChar then
        some ("UC" ++ String.mk body)
      else none
  | _ => none

/-- Attempted match of `/PL[a-zA-Z0-9_-]+/` at the head of the text
(greedy run of allowed characters, at least one). -/
def playlistAt : List Char → Option String
  | 'P' :: 'L' :: rest =>
      let body := rest.takeWhile isIdChar
      if body.length == 0 then none else some ("PL" ++ String.mk body)
  | _ => none

/-- Unanchored regex search: try the pattern at each position from the
left and return the leftmost match. -/
def searchFrom (f : List Char → Option String) : List Char → Option String
  | [] => none
  | c :: cs =>
      match f (c :: cs) with
      | some s => some s
      | none => searchFrom f cs

/-- Model of `extractChannelId` (lines 43-48). -/
def extractChannelId (input : Option String) : Option String :=
  let raw := jsTrim (input.getD "")
  if raw = "" then none
  else searchFrom channelAt raw.data

/-- Model of `extractPlaylistId` (lines 50-55). -/
def extractPlaylistId (input : Option String) : Option String :=
  let raw := jsTrim (input.getD "")
  if raw = "" then none
  else searchFrom playlistAt raw.data

/-- Exception-explicit version of `extractVideoId`: the one operation that
can throw is the URL constructor (modelled by `parseE` returning
`Except.error`), and the source wraps it in `try`/`catch` returning `null`.
Every other operation in the body is total. -/
def extractVideoIdE (parseE : String → Except JSValue URL) (input : Option String) :
    Except JSValue (Option String) :=
  let raw := jsTrim (input.getD "")
  if raw = "" then Except.ok none
  else if isVideoId raw then Except.ok (some raw)
  else
    match parseE raw with
    | Except.error _ => Except.ok none
    | Except.ok url => Except.ok (extractVideoIdFromURL url)

/-- Exception-explicit version of `extractChannelId`: no operation in its
body can throw. -/
def extractChannelIdE (input : Option String) : Except JSValue (Option String) :=
  let raw := jsTrim (input.getD "")
  if raw = "" then Except.ok none
  else Except.ok (searchFrom channelAt raw.data)

/-- Exception-explicit version of `extractPlaylistId`: no operation in its
body can throw. -/
def extractPlaylistIdE (input : Option String) : Except JSValue (Option String) :=
  let raw := jsTrim (input.getD "")
  if raw = "" then Except.ok none
  else Except.ok (searchFrom playlistAt raw.data)

/-- Model of `Response.ok`: transport status in the 2xx range. -/
def httpOk (status : Nat) : Bool :=
  decide (200 ≤ status) && decide (status ≤ 299)

/-- Line 80: the payload synthesized when `JSON.parse` throws,
`\x7b error: text || "HTTP <status>" \x7d`. -/
def synthPayload (status : Nat) (text : String) : JSValue :=
  JSValue.obj [("error", JSValue.str (if text = "" then "HTTP " ++ toString status else text))]

/-- Model of `fetchJson` (lines 73-86).  The transport is the oracle: `status` and
`text` are the response status and body, and `parsed` is the result of the
platform `JSON.parse` on `text` (`none` when it throws).  The `Except.error`
case carries the value passed to `new Error` (whose stringification is the
message). -/
def fetchJson (status : Nat) (text : String) (parsed : Option JSValue) :
    Except JSValue JSValue :=
  let data :=
    match parsed with
    | some d => d
    | none => synthPayload status text
  if httpOk status then Except.ok data
  else Except.error (jsOr (jsGet data "error") (JSValue.str ("HTTP " ++ toString status)))

/-- The two metadata action links built by `renderMeta` (lines 112-124):
the external watch link and the permalink carrying the updated query. -/
inductive MetaAction where
  | watch (videoId : String)
  | permalink (query : List (String × String))

/-- One rendered results-list entry (lines 145-199).  `clickVideoId` is the
value captured by the click listener of a feed item; the placeholder entry
gets no listener at all. -/
structure RenderedItem where
  thumb : Option JSValue
  titleText : JSValue
  dateText : JSValue
  openHref : JSValue
  descText : JSValue
  clickVideoId : JSValue

/-- A results-list entry: either the single "No items." placeholder or a
feed item. -/
inductive Entry where
  | noItems
  | item (it : RenderedItem)

/-- Whether a rendered entry carries a click listener: only real feed items
do (line 192); the placeholder is inert. -/
def Entry.hasClickHandler : Entry → Bool
  | .noItems => false
  | .item _ => true

/-- The DOM and address-bar state the client mutates: status line, player
frame, metadata panel, results region, and the query string of the current
location. -/
structure UIState where
  statusMsg : String
  statusError : Bool
  playerSrc : String
  placeholderShown : Bool
  metaTitle : JSValue
  metaByline : JSValue
  metaActions : List MetaAction
  resultsTitle : JSValue
  resultsSub : JSValue
  resultsList : List Entry
  query : List (String × String)

/-- The page state at load: empty regions, player placeholder showing, and
an empty query string. -/
def initialState : UIState where
  statusMsg := ""
  statusError := false
  playerSrc := ""
  placeholderShown := true
  metaTitle := JSValue.str ""
  metaByline := JSValue.str ""
  metaActions := []
  resultsTitle := JSValue.str ""
  resultsSub := JSValue.str ""
  resultsList := []
  query := []

/-- Effects with an observable ordering: the synchronous player update,
the `history.replaceState` call, and the two network fetches. -/
inductive Event where
  | setPlayerEv (videoId : String)
  | historyReplaceEv
  | fetchOEmbedEv (videoId : String)
  | fetchFeedEv (params : List (String × String))

/-- Model of `setStatus` (lines 3-7). -/
def setStatus (st : UIState) (message : String) (isError : Bool) : UIState :=
  { st with statusMsg := message, statusError := isError }

/-- The embed address built by `setPlayer` (lines 97-101): the serialized
`URL` with its three query parameters set in order. -/
def embedSrc (videoId : String) : String :=
  "https://www.youtube-nocookie.com/embed/" ++ videoId ++ "?autoplay=1&rel=0&modestbranding=1"

/-- Model of `setPlayer` (lines 88-102).  A falsy (empty) id clears the frame and
shows the placeholder. -/
def setPlayer (st : UIState) (videoId : String) : UIState :=
  if videoId = "" then
    { st with playerSrc := "", placeholderShown := true }
  else
    { st with placeholderShown := false, playerSrc := embedSrc videoId }

/-- Model of `setQuery` (lines 64-71) acting on the query-parameter list: each
update whose value is `null`/`undefined` (`none`) or the empty string
deletes the parameter, every other update sets it; updates apply in
object-key order. -/
def setQuery (q : List (String × String)) (updates : List (String × Option String)) :
    List (String × String) :=
  updates.foldl
    (fun acc kv =>
      match kv.2 with
      | none => spDelete acc kv.1
      | some v => if v = "" then spDelete acc kv.1 else spSet acc kv.1 v)
    q

/-- Model of `renderMeta` (lines 104-125).  `videoId`, `title`, `author` are the
three destructured fields; the actions region is rebuilt from scratch on
every call. -/
def renderMeta (st : UIState) (videoId title author : JSValue) : UIState :=
  { st with
    metaTitle :=
      jsOr title (JSValue.str (if truthy videoId then "Video: " ++ jsToString videoId else "")),
    metaByline :=
      if truthy author then JSValue.str ("by " ++ jsToString author) else JSValue.str "",
    metaActions :=
      if truthy videoId then
        [MetaAction.watch (jsToString videoId),
         MetaAction.permalink (spSet st.query "v" (jsToString videoId))]
      else [] }

/-- The destructuring `renderMeta(\x7b videoId, ...data \x7d)` on line 130: a
`videoId`, `title` or `author_name` own property of the fetched payload
overrides or supplies the corresponding field. -/
def spreadMeta (videoId : String) (data : JSValue) : JSValue × JSValue × JSValue :=
  let fields := match data with | .obj fs => fs | _ => []
  (((fields.find? (fun p => p.1 == "videoId")).map Prod.snd).getD (JSValue.str videoId),
   ((fields.find? (fun p => p.1 == "title")).map Prod.snd).getD JSValue.undefined,
   ((fields.find? (fun p => p.1 == "author_name")).map Prod.snd).getD JSValue.undefined)

/-- Model of `loadOEmbed` (lines 127-134).  `res` is the outcome of the `fetchJson`
call (error value stringified to the thrown message); a failed fetch still
renders the metadata panel, from the id alone. -/
def loadOEmbed (st : UIState) (videoId : String) (res : Except String JSValue) :
    UIState × List Event :=
  match res with
  | Except.ok data =>
      let m := spreadMeta videoId data
      (renderMeta st m.1 m.2.1 m.2.2, [Event.fetchOEmbedEv videoId])
  | Except.error _ =>
      (renderMeta st (JSValue.str videoId) JSValue.undefined JSValue.undefined,
       [Event.fetchOEmbedEv videoId])

/-- Model of `formatDate` (lines 57-62).  `dparse` is the platform `Date` parse and
locale formatting oracle (`none` models an invalid date), applied to the
raw `published` value. -/
def formatDate (dparse : JSValue → Option String) (iso : JSValue) : JSValue :=
  if truthy iso then
    match dparse iso with
    | none => iso
    | some s => JSValue.str s
  else JSValue.str ""

/-- One feed item rendered by the loop body of `renderFeed`
(lines 152-199). -/
def renderItem (dparse : JSValue → Option String) (item : JSValue) : Entry :=
  Entry.item
    { thumb := if truthy (jsGet item "thumbnail") then some (jsGet item "thumbnail") else none
      titleText := jsOr (jsGet item "title") (jsOr (jsGet item "videoId") (JSValue.str "Untitled"))
      dateText := formatDate dparse (jsGet item "published")
      openHref :=
        jsOr (jsGet item "link")
          (JSValue.str ("https://www.youtube.com/watch?v=" ++ jsToString (jsGet item "videoId")))
      descText := jsOr (jsGet item "description") (JSValue.str "")
      clickVideoId := jsGet item "videoId" }

/-- Model of `renderFeed` (lines 136-201): fully replaces the results title,
subtitle, and list; a missing or non-array `items` field renders like an
empty sequence, and an empty sequence renders the single placeholder
entry. -/
def renderFeed (dparse : JSValue → Option String) (st : UIState) (feed : JSValue) : UIState :=
  let items := match jsGet feed "items" with | .arr xs => xs | _ => []
  { st with
    resultsTitle := jsOr (jsGet feed "title") (JSValue.str "Feed"),
    resultsSub := jsOr (jsGet feed "feedUrl") (JSValue.str ""),
    resultsList :=
      if items.isEmpty then [Entry.noItems] else items.map (renderItem dparse) }

/-- Whether a value is a JavaScript array (`Array.isArray`). -/
def isArr : JSValue → Bool
  | .arr _ => true
  | _ => false

/-- A feed value with the same `title` and `feedUrl` readings as `feed` but
an explicitly empty item array: the comparison point for degenerate
`items` fields. -/
def feedLikeEmpty (feed : JSValue) : JSValue :=
  JSValue.obj
    [("title", jsGet feed "title"), ("feedUrl", jsGet feed "feedUrl"),
     ("items", JSValue.arr [])]

/-- Model of `loadFeed` (lines 203-215).  `res` is the outcome of the `fetchJson`
call, its error already stringified to the `Error` message read by
`e?.message`. -/
def loadFeed (dparse : JSValue → Option String) (st : UIState)
    (params : List (String × String)) (res : Except String JSValue) : UIState × List Event :=
  let st1 := setStatus st "Loading feed…" false
  match res with
  | Except.ok data =>
      (setStatus (renderFeed dparse st1 data) "" false, [Event.fetchFeedEv params])
  | Except.error msg =>
      let st2 := setStatus st1 (if msg = "" then "Failed to load feed" else msg) true
      (renderFeed dparse st2 (JSValue.obj [("title", JSValue.str "Feed"), ("items", JSValue.arr [])]),
       [Event.fetchFeedEv params])

/-- Model of `playVideo` (lines 217-222): synchronous player update, optional
address-state push, then the asynchronous oEmbed load. -/
def playVideo (st : UIState) (videoId : String) (pushQuery : Bool)
    (oembed : Except String JSValue) : UIState × List Event :=
  if videoId = "" then (st, [])
  else
    let st1 := setPlayer st videoId
    let st2 :=
      if pushQuery then { st1 with query := setQuery st1.query [("v", some videoId)] } else st1
    let ev2 : List Event := if pushQuery then [Event.historyReplaceEv] else []
    let r3 := loadOEmbed st2 videoId oembed
    (r3.1, Event.setPlayerEv videoId :: (ev2 ++ r3.2))

theorem idChar_bounds (c : Char) (h : isIdChar c = true) : '-' ≤ c ∧ c ≤ 'z' := by
  simp [isIdChar, Char.isAlphanum, Char.isAlpha, Char.isDigit, Char.isUpper,
    Char.isLower] at h
  rcases h with (((⟨h1, h2⟩ | ⟨h1, h2⟩) | ⟨h1, h2⟩) | rfl) | rfl
  · exact ⟨le_trans (by decide : ('-' : Char) ≤ 'A') (show 'A' ≤ c from h1),
      le_trans (show c ≤ 'Z' from h2) (by decide : ('Z' : Char) ≤ 'z')⟩
  · exact ⟨le_trans (by decide : ('-' : Char) ≤ 'a') (show 'a' ≤ c from h1),
      show c ≤ 'z' from h2⟩
  · exact ⟨le_trans (by decide : ('-' : Char) ≤ '0') (show '0' ≤ c from h1),
      le_trans (show c ≤ '9' from h2) (by decide : ('9' : Char) ≤ 'z')⟩
  · exact ⟨by decide, by decide⟩
  · exact ⟨by decide, by decide⟩

theorem idChar_not_ws (c : Char) (h : isIdChar c = true) : isJSWhitespace c = false := by
  obtain ⟨hm, hz⟩ := idChar_bounds c h
  have hne : ∀ w : Char, w < '-' ∨ 'z' < w → (c == w) = false := by
    intro w hw
    rw [beq_eq_false_iff_ne]
    rintro rfl
    rcases hw with hw | hw
    · exact absurd hm (not_le.mpr hw)
    · exact absurd hz (not_le.mpr hw)
  have hrange : (decide ('\u2000' ≤ c)) = false :=
    decide_eq_false (fun hle => absurd hz (not_le.mpr (lt_of_lt_of_le (by decide) hle)))
  simp only [isJSWhitespace,
    hne ' ' (Or.inl (by decide)), hne '\t' (Or.inl (by decide)),
    hne '\n' (Or.inl (by decide)), hne '\r' (Or.inl (by decide)),
    hne '\x0b' (Or.inl (by decide)), hne '\x0c' (Or.inl (by decide)),
    hne '\u00a0' (Or.inr (by decide)), hne '\u1680' (Or.inr (by decide)),
    hne '\u2028' (Or.inr (by decide)), hne '\u2029' (Or.inr (by decide)),
    hne '\u202f' (Or.inr (by decide)), hne '\u205f' (Or.inr (by decide)),
    hne '\u3000' (Or.inr (by decide)), hne '\ufeff' (Or.inr (by decide)), hrange]
  simp

theorem dropWhile_eq_self_of_all (p : Char → Bool) (l : List Char)
    (h : ∀ x ∈ l, p x = false) : l.dropWhile p = l := by
  cases l with
  | nil => rfl
  | cons a t => simp [List.dropWhile_cons, h a (List.mem_cons_self a t)]

theorem jsTrim_eq_self (s : String) (h : ∀ c ∈ s.data, isJSWhitespace c = false) :
    jsTrim s = s := by
  unfold jsTrim
  rw [dropWhile_eq_self_of_all _ _ h,
    dropWhile_eq_self_of_all _ _ (fun x hx => h x (List.mem_reverse.mp hx)),
    List.reverse_reverse]

/-- Claim C2: every string of exactly 11 characters from `[A-Za-z0-9_-]` is
returned unchanged by `extractVideoId` (the initial trim leaves it intact
and the direct anchored match fires), for any behaviour of the URL-parser
oracle. -/
theorem extractVideoId_direct (parse : String → Option URL) (s : String)
    (h : isVideoId s = true) : extractVideoId parse (some s) = some s := by
  have hp := (Bool.and_eq_true _ _).mp h
  have hlen : s.length = 11 := by simpa using hp.1
  have hall : ∀ c ∈ s.data, isIdChar c = true := List.all_eq_true.mp hp.2
  have htrim : jsTrim s = s :=
    jsTrim_eq_self s (fun c hc => idChar_not_ws c (hall c hc))
  have hne : s ≠ "" := by
    intro he
    rw [he] at hlen
    exact absurd hlen (by decide)
  unfold extractVideoId
  simp only [Option.getD_some, htrim, if_neg hne, h, if_true]

/-- Claim C2 witness: the direct-match theorem evaluated at a concrete
11-character id with a URL parser that never succeeds. -/
theorem extractVideoId_direct_w :
    isVideoId "dQw4w9WgXcQ" = true ∧
    extractVideoId (fun _ => none) (some "dQw4w9WgXcQ") = some "dQw4w9WgXcQ" :=
  ⟨by decide, extractVideoId_direct (fun _ => none) "dQw4w9WgXcQ" (by decide)⟩

/-- Claim C3: the three extractors are total functions of their input (hence
deterministic and side-effect free, being plain Lean functions), and the
exception-explicit embeddings never produce an error for any input —
including `null`/`undefined` (`none`) and the empty string — for any
behaviour of the throwing URL constructor; malformed input produces the
`none` result, not an exception. -/
theorem extractors_never_throw (parseE : String → Except JSValue URL)
    (input : Option String) :
    extractVideoIdE parseE input =
      Except.ok (extractVideoId (fun s => (parseE s).toOption) input) ∧
    extractChannelIdE input = Except.ok (extractChannelId input) ∧
    extractPlaylistIdE input = Except.ok (extractPlaylistId input) ∧
    extractVideoId (fun s => (parseE s).toOption) none = none ∧
    extractChannelId none = none ∧
    extractPlaylistId none = none ∧
    extractVideoId (fun s => (parseE s).toOption) (some "") = none ∧
    extractChannelId (some "") = none ∧
    extractPlaylistId (some "") = none := by
  refine ⟨?_, ?_, ?_, rfl, rfl, rfl, rfl, rfl, rfl⟩
  · unfold extractVideoIdE extractVideoId
    by_cases h0 : jsTrim (input.getD "") = ""
    · simp [h0]
    · simp only [if_neg h0]
      by_cases h1 : isVideoId (jsTrim (input.getD "")) = true
      · simp [h1]
      · simp only [h1, if_false, Bool.false_eq_true]
        cases hp : parseE (jsTrim (input.getD "")) <;> simp [hp, Except.toOption]
  · unfold extractChannelIdE extractChannelId
    by_cases h0 : jsTrim (input.getD "") = "" <;> simp [h0]
  · unfold extractPlaylistIdE extractPlaylistId
    by_cases h0 : jsTrim (input.getD "") = "" <;> simp [h0]

/-- Claim C8: `renderFeed` is idempotent — it fully replaces the results
title, subtitle and list, reading nothing from the previous contents of the
region, so rendering the same feed twice equals rendering it once. -/
theorem renderFeed_idempotent (dparse : JSValue → Option String) (st : UIState)
    (feed : JSValue) :
    renderFeed dparse (renderFeed dparse st feed) feed = renderFeed dparse st feed := rfl

/-- Claim C9: on a successful (2xx) transport status with a body that is
not valid JSON, `fetchJson` does not throw — it returns the synthesized
`error` payload as an ordinary success value. -/
theorem fetchJson_ok_nonjson (status : Nat) (text : String) (h : httpOk status = true) :
    fetchJson status text none =
      Except.ok (JSValue.obj
        [("error", JSValue.str (if text = "" then "HTTP " ++ toString status else text))]) := by
  simp [fetchJson, synthPayload, h]

/-- Claim C9 witness: a 200 response whose body `oops` fails JSON parsing
comes back as a success value carrying that body in its `error` field. -/
theorem fetchJson_ok_nonjson_w :
    httpOk 200 = true ∧
    fetchJson 200 "oops" none = Except.ok (JSValue.obj [("error", JSValue.str "oops")]) :=
  ⟨rfl, by simpa using fetchJson_ok_nonjson 200 "oops" rfl⟩

/-- Claim C4 counterexample: with status 500 and the body
`\x7b "error": "" \x7d`, the parsed payload has a present `error` field
(value the empty string), yet the thrown message is the `HTTP 500`
fallback — the fallback is driven by falsiness, not absence, of the
field, so the claim as stated is false at this input. -/
theorem fetchJson_falsy_error_field :
    jsGet (JSValue.obj [("error", JSValue.str "")]) "error" = JSValue.str "" ∧
    JSValue.str "" ≠ JSValue.str "HTTP 500" ∧
    fetchJson 500 "\x7b\"error\":\"\"\x7d" (some (JSValue.obj [("error", JSValue.str "")])) =
      Except.error (JSValue.str "HTTP 500") := by
  refine ⟨rfl, ?_, rfl⟩
  simp

/-- Claim C4 (amended): `fetchJson` uses the parsed body for any transport
status, substituting the synthesized payload when parsing fails; it throws
exactly when the status is not 2xx, and the thrown value is the payload
`error` field when that field is present and truthy, with the
`HTTP <status>` fallback when the field is absent or falsy. -/
theorem fetchJson_spec (status : Nat) (text : String) (parsed : Option JSValue) :
    (httpOk status = true →
      fetchJson status text parsed = Except.ok (parsed.getD (synthPayload status text))) ∧
    (httpOk status = false →
      fetchJson status text parsed =
        Except.error
          (if truthy (jsGet (parsed.getD (synthPayload status text)) "error") = true
           then jsGet (parsed.getD (synthPayload status text)) "error"
           else JSValue.str ("HTTP " ++ toString status))) ∧
    ((∃ e, fetchJson status text parsed = Except.error e) ↔ httpOk status = false) := by
  unfold fetchJson jsOr
  cases parsed <;> by_cases h : httpOk status = true <;>
    simp [h, Option.getD]

/-- Claim C4 witness: a 404 with an empty unparseable body throws with the
`HTTP 404` fallback message. -/
theorem fetchJson_spec_w :
    httpOk 404 = false ∧
    fetchJson 404 "" none = Except.error (JSValue.str "HTTP 404") :=
  ⟨rfl, ((fetchJson_spec 404 "" none).2.1 rfl).trans rfl⟩

/-- Claim C10: a feed whose `items` field is missing or not an array —
including a `null` or `undefined` feed — renders exactly like the same
feed with an empty item array (the model is a total function, so no
exception is possible): single placeholder entry, and for a `null` or
`undefined` feed the title falls back to `Feed` and the subtitle to the
empty string. -/
theorem renderFeed_degenerate (dparse : JSValue → Option String) (st : UIState)
    (feed : JSValue) (h : isArr (jsGet feed "items") = false) :
    renderFeed dparse st feed = renderFeed dparse st (feedLikeEmpty feed) ∧
    (renderFeed dparse st feed).resultsList = [Entry.noItems] ∧
    ((feed = JSValue.null ∨ feed = JSValue.undefined) →
      (renderFeed dparse st feed).resultsTitle = JSValue.str "Feed" ∧
      (renderFeed dparse st feed).resultsSub = JSValue.str "") := by
  have hitems : (match jsGet feed "items" with | JSValue.arr xs => xs | _ => ([] : List JSValue)) = [] := by
    cases hj : jsGet feed "items" <;> first | rfl | (rw [hj] at h; exact absurd h (by simp [isArr]))
  refine ⟨?_, ?_, ?_⟩
  · unfold renderFeed feedLikeEmpty
    simp only [hitems]
    rfl
  · simp [renderFeed, hitems]
  · rintro (rfl | rfl) <;> exact ⟨rfl, rfl⟩

/-- Claim C10 witness: the degenerate-feed theorem evaluated at a `null`
feed. -/
theorem renderFeed_degenerate_w :
    isArr (jsGet JSValue.null "items") = false ∧
    (renderFeed (fun _ => none) initialState JSValue.null).resultsList = [Entry.noItems] ∧
    (renderFeed (fun _ => none) initialState JSValue.null).resultsTitle = JSValue.str "Feed" ∧
    (renderFeed (fun _ => none) initialState JSValue.null).resultsSub = JSValue.str "" :=
  ⟨rfl, (renderFeed_degenerate (fun _ => none) initialState JSValue.null rfl).2.1,
    ((renderFeed_degenerate (fun _ => none) initialState JSValue.null rfl).2.2 (Or.inl rfl)).1,
    ((renderFeed_degenerate (fun _ => none) initialState JSValue.null rfl).2.2 (Or.inl rfl)).2⟩

/-- Claim C5: in the play-video action the trace starts with the
synchronous player update, with the network fetch strictly afterwards, and
when the oEmbed fetch fails the metadata panel falls back to
`Video: <id>` with an empty byline, the player still holds the embed
address for the id, and the status line is exactly what it was before the
action (the fetch error is never surfaced there). -/
theorem playVideo_metadata_degrades (st : UIState) (videoId : String)
    (pushQuery : Bool) (msg : String) (h : isVideoId videoId = true) :
    (playVideo st videoId pushQuery (Except.error msg)).2 =
      Event.setPlayerEv videoId ::
        ((if pushQuery then [Event.historyReplaceEv] else []) ++
          [Event.fetchOEmbedEv videoId]) ∧
    (playVideo st videoId pushQuery (Except.error msg)).1.playerSrc = embedSrc videoId ∧
    (playVideo st videoId pushQuery (Except.error msg)).1.placeholderShown = false ∧
    (playVideo st videoId pushQuery (Except.error msg)).1.metaTitle =
      JSValue.str ("Video: " ++ videoId) ∧
    (playVideo st videoId pushQuery (Except.error msg)).1.metaByline = JSValue.str "" ∧
    (playVideo st videoId pushQuery (Except.error msg)).1.statusMsg = st.statusMsg ∧
    (playVideo st videoId pushQuery (Except.error msg)).1.statusError = st.statusError := by
  have hne : videoId ≠ "" := by
    intro he
    rw [he] at h
    exact absurd h (by decide)
  cases pushQuery <;>
    simp [playVideo, loadOEmbed, renderMeta, setPlayer, jsOr, truthy, jsToString, hne]

/-- Claim C5 witness: the degradation theorem at a concrete state and id
with a failing oEmbed fetch. -/
theorem playVideo_metadata_degrades_w :
    isVideoId "dQw4w9WgXcQ" = true ∧
    (playVideo initialState "dQw4w9WgXcQ" true (Except.error "network down")).2 =
      [Event.setPlayerEv "dQw4w9WgXcQ", Event.historyReplaceEv,
        Event.fetchOEmbedEv "dQw4w9WgXcQ"] ∧
    (playVideo initialState "dQw4w9WgXcQ" true (Except.error "network down")).1.playerSrc =
      embedSrc "dQw4w9WgXcQ" ∧
    (playVideo initialState "dQw4w9WgXcQ" true (Except.error "network down")).1.metaTitle =
      JSValue.str "Video: dQw4w9WgXcQ" ∧
    (playVideo initialState "dQw4w9WgXcQ" true (Except.error "network down")).1.statusMsg = "" :=
  ⟨by decide,
    ((playVideo_metadata_degrades initialState "dQw4w9WgXcQ" true "network down"
      (by decide)).1).trans rfl,
    (playVideo_metadata_degrades initialState "dQw4w9WgXcQ" true "network down"
      (by decide)).2.1,
    (playVideo_metadata_degrades initialState "dQw4w9WgXcQ" true "network down"
      (by decide)).2.2.2.1,
    ((playVideo_metadata_degrades initialState "dQw4w9WgXcQ" true "network down"
      (by decide)).2.2.2.2.2.1).trans rfl⟩

/-- Claim C6: a failed feed load shows the fetch error message as an error
status (falling back to a generic message when it is empty) and renders an
empty feed under the generic title `Feed` with the empty subtitle; and any
feed with an empty item array renders as the single inert `No items.`
placeholder entry, which carries no click handler. -/
theorem loadFeed_failure_fallback (dparse : JSValue → Option String) (st : UIState)
    (params : List (String × String)) (msg : String) :
    (loadFeed dparse st params (Except.error msg)).1.statusMsg =
      (if msg = "" then "Failed to load feed" else msg) ∧
    (loadFeed dparse st params (Except.error msg)).1.statusError = true ∧
    (loadFeed dparse st params (Except.error msg)).1.resultsTitle = JSValue.str "Feed" ∧
    (loadFeed dparse st params (Except.error msg)).1.resultsSub = JSValue.str "" ∧
    (loadFeed dparse st params (Except.error msg)).1.resultsList = [Entry.noItems] ∧
    Entry.hasClickHandler Entry.noItems = false ∧
    (∀ st2 feed, jsGet feed "items" = JSValue.arr [] →
      (renderFeed dparse st2 feed).resultsList = [Entry.noItems]) := by
  refine ⟨?_, ?_, ?_, ?_, ?_, rfl, ?_⟩
  · simp [loadFeed, setStatus, renderFeed]
  · rfl
  · rfl
  · rfl
  · rfl
  · intro st2 feed hf
    simp [renderFeed, hf]

/-- Claim C6 witness: the failure-fallback theorem at a concrete state,
query and error message, plus the placeholder clause at a concrete empty
feed. -/
theorem loadFeed_failure_fallback_w :
    (loadFeed (fun _ => none) initialState [("channel_id", "UCx")]
      (Except.error "HTTP 502")).1.statusMsg = "HTTP 502" ∧
    (loadFeed (fun _ => none) initialState [("channel_id", "UCx")]
      (Except.error "HTTP 502")).1.statusError = true ∧
    (loadFeed (fun _ => none) initialState [("channel_id", "UCx")]
      (Except.error "HTTP 502")).1.resultsTitle = JSValue.str "Feed" ∧
    (loadFeed (fun _ => none) initialState [("channel_id", "UCx")]
      (Except.error "HTTP 502")).1.resultsList = [Entry.noItems] ∧
    (renderFeed (fun _ => none) initialState
      (JSValue.obj [("items", JSValue.arr [])])).resultsList = [Entry.noItems] :=
  ⟨((loadFeed_failure_fallback (fun _ => none) initialState [("channel_id", "UCx")]
      "HTTP 502").1).trans rfl,
    (loadFeed_failure_fallback (fun _ => none) initialState [("channel_id", "UCx")]
      "HTTP 502").2.1,
    (loadFeed_failure_fallback (fun _ => none) initialState [("channel_id", "UCx")]
      "HTTP 502").2.2.1,
    (loadFeed_failure_fallback (fun _ => none) initialState [("channel_id", "UCx")]
      "HTTP 502").2.2.2.2.1,
    (loadFeed_failure_fallback (fun _ => none) initialState [("channel_id", "UCx")]
      "HTTP 502").2.2.2.2.2.2 initialState (JSValue.obj [("items", JSValue.arr [])]) rfl⟩

theorem spGet_cons (a : String × String) (l : List (String × String)) (k : String) :
    spGet (a :: l) k = if a.1 == k then some a.2 else spGet l k := by
  by_cases h : a.1 == k <;> simp [spGet, List.find?_cons, h]

theorem spGet_spDelete_self (q : List (String × String)) (k : String) :
    spGet (spDelete q k) k = none := by
  induction q with
  | nil => rfl
  | cons p t ih =>
      simp only [spDelete, List.filter_cons] at ih ⊢
      by_cases h : p.1 == k
      · simp [h, ih]
      · simp [h, spGet_cons, ih]

theorem spGet_spDelete_ne (q : List (String × String)) (k' k : String) (h : k' ≠ k) :
    spGet (spDelete q k') k = spGet q k := by
  induction q with
  | nil => rfl
  | cons p t ih =>
      simp only [spDelete, List.filter_cons] at ih ⊢
      by_cases hp : p.1 == k'
      · have hpk : (p.1 == k) = false := by
          simp only [beq_iff_eq] at hp
          simp [hp, h]
        simp [hp, spGet_cons, hpk, ih]
      · simp [hp, spGet_cons, ih]

theorem spGet_spSet_self (q : List (String × String)) (k v : String) :
    spGet (spSet q k v) k = some v := by
  induction q with
  | nil => simp [spSet, spGet_cons]
  | cons p t ih =>
      by_cases h : p.1 == k
      · simp [spSet, h, spGet_cons]
      · simp [spSet, h, spGet_cons, ih]

theorem spGet_spSet_ne (q : List (String × String)) (k' k v : String) (h : k' ≠ k) :
    spGet (spSet q k' v) k = spGet q k := by
  induction q with
  | nil => simp [spSet, spGet_cons, h]
  | cons p t ih =>
      by_cases hp : p.1 == k'
      · have hpk : (p.1 == k) = false := by
          simp only [beq_iff_eq] at hp
          simp [hp, h]
        simp [spSet, hp, spGet_cons, hpk, h, spGet_spDelete_ne t k' k h]
      · simp [spSet, hp, spGet_cons, ih]

theorem setQuery_cons_none (q : List (String × String)) (k1 : String)
    (rest : List (String × Option String)) :
    setQuery q ((k1, none) :: rest) = setQuery (spDelete q k1) rest := rfl

theorem setQuery_cons_some (q : List (String × String)) (k1 s : String)
    (rest : List (String × Option String)) :
    setQuery q ((k1, some s) :: rest) =
      setQuery (if s = "" then spDelete q k1 else spSet q k1 s) rest := rfl

theorem spGet_setQuery_not_mem (q : List (String × String))
    (updates : List (String × Option String)) (k : String)
    (h : k ∉ updates.map Prod.fst) :
    spGet (setQuery q updates) k = spGet q k := by
  induction updates generalizing q with
  | nil => rfl
  | cons kv rest ih =>
      simp only [List.map_cons, List.mem_cons] at h
      push_neg at h
      obtain ⟨hk, hrest⟩ := h
      have hne : kv.1 ≠ k := fun he => hk he.symm
      obtain ⟨k1, v1⟩ := kv
      cases v1 with
      | none => rw [setQuery_cons_none, ih _ hrest, spGet_spDelete_ne _ _ _ hne]
      | some s =>
          rw [setQuery_cons_some]
          by_cases hs : s = ""
          · subst hs
            rw [if_pos rfl, ih _ hrest, spGet_spDelete_ne _ _ _ hne]
          · rw [if_neg hs, ih _ hrest, spGet_spSet_ne _ _ _ _ hne]

theorem spGet_setQuery_mem (q : List (String × String))
    (updates : List (String × Option String)) (k : String) (v : Option String)
    (hnd : (updates.map Prod.fst).Nodup) (hmem : (k, v) ∈ updates) :
    spGet (setQuery q updates) k =
      v.bind (fun s => if s = "" then none else some s) := by
  induction updates generalizing q with
  | nil => exact absurd hmem (List.not_mem_nil _)
  | cons kv rest ih =>
      have hnd2 : kv.1 ∉ rest.map Prod.fst ∧ (rest.map Prod.fst).Nodup := by
        have h2 := hnd
        simp only [List.map_cons, List.nodup_cons] at h2
        exact h2
      rcases List.mem_cons.mp hmem with he | hm
      · obtain rfl := he.symm
        have hk : k ∉ rest.map Prod.fst := hnd2.1
        cases v with
        | none =>
            rw [setQuery_cons_none, spGet_setQuery_not_mem _ _ _ hk, spGet_spDelete_self]
            rfl
        | some s =>
            rw [setQuery_cons_some]
            by_cases hs : s = ""
            · subst hs
              rw [if_pos rfl, spGet_setQuery_not_mem _ _ _ hk, spGet_spDelete_self]
              simp
            · rw [if_neg hs, spGet_setQuery_not_mem _ _ _ hk, spGet_spSet_self]
              simp [hs]
      · obtain ⟨k1, v1⟩ := kv
        cases v1 with
        | none => rw [setQuery_cons_none]; exact ih _ hnd2.2 hm
        | some s => rw [setQuery_cons_some]; exact ih _ hnd2.2 hm

/-- Claim C7: `setQuery` removes every parameter whose new value is
`null`, `undefined` or the empty string (it never stores an empty-string
value), stores every other updated value, and leaves parameters not named
in the update mapping untouched. -/
theorem setQuery_spec (q : List (String × String))
    (updates : List (String × Option String))
    (hnd : (updates.map Prod.fst).Nodup) (k : String) :
    (∀ v, (k, v) ∈ updates →
      spGet (setQuery q updates) k =
        v.bind (fun s => if s = "" then none else some s)) ∧
    (k ∉ updates.map Prod.fst → spGet (setQuery q updates) k = spGet q k) :=
  ⟨fun v hv => spGet_setQuery_mem q updates k v hnd hv,
    fun hk => spGet_setQuery_not_mem q updates k hk⟩

/-- Claim C7 witness: applying the update `channel := UC1, playlist := clear`
to an address holding `playlist=PL1` and `v=vid` leaves `playlist` absent,
stores `channel=UC1`, and leaves `v` untouched. -/
theorem setQuery_spec_w :
    spGet (setQuery [("playlist", "PL1"), ("v", "vid")]
      [("channel", some "UC1"), ("playlist", none)]) "playlist" = none ∧
    spGet (setQuery [("playlist", "PL1"), ("v", "vid")]
      [("channel", some "UC1"), ("playlist", none)]) "channel" = some "UC1" ∧
    spGet (setQuery [("playlist", "PL1"), ("v", "vid")]
      [("channel", some "UC1"), ("playlist", none)]) "v" = some "vid" :=
  ⟨((setQuery_spec [("playlist", "PL1"), ("v", "vid")]
      [("channel", some "UC1"), ("playlist", none)] (by decide) "playlist").1 none
      (by simp)).trans rfl,
    ((setQuery_spec [("playlist", "PL1"), ("v", "vid")]
      [("channel", some "UC1"), ("playlist", none)] (by decide) "channel").1 (some "UC1")
      (by simp)).trans rfl,
    ((setQuery_spec [("playlist", "PL1"), ("v", "vid")]
      [("channel", some "UC1"), ("playlist", none)] (by decide) "v").2
      (by decide)).trans rfl⟩

theorem isVideoId_ne_empty (s : String) (h : isVideoId s = true) : s ≠ "" := by
  intro he
  rw [he] at h
  exact absurd h (by decide)

theorem ytPathBranch_eq (u : URL) :
    ytPathBranch u =
      (if (((pathSegs u.pathname).get? 0).getD "" == "shorts" ||
           ((pathSegs u.pathname).get? 0).getD "" == "embed") &&
          isVideoId (((pathSegs u.pathname).get? 1).getD "") then
        some (((pathSegs u.pathname).get? 1).getD "")
       else none) := by
  unfold ytPathBranch
  by_cases h1 : ((pathSegs u.pathname).get? 0).getD "" = "shorts" ∨
      ((pathSegs u.pathname).get? 0).getD "" = "embed" <;>
    by_cases h2 : isVideoId (((pathSegs u.pathname).get? 1).getD "") = true <;>
    simp_all

theorem ytPathBranch_valid (u : URL) (s : String) (h : ytPathBranch u = some s) :
    isVideoId s = true := by
  rw [ytPathBranch_eq] at h
  split at h
  case isTrue hb =>
    obtain rfl := Option.some.inj h
    exact ((Bool.and_eq_true _ _).mp hb).2
  case isFalse => exact absurd h (by simp)

/-- Claim C1: for any parsed URL, after stripping a leading `www.` from the
host — if the host is `youtu.be` the result is the first non-empty path
segment exactly when that segment matches the 11-character pattern; if the
host ends with `youtube.com` the `v` query parameter is returned when it
matches the pattern, and otherwise the second path segment is returned
exactly when the first segment is `shorts` or `embed` and the second
matches the pattern; for any other host the result is no match; and every
returned candidate satisfies the exact 11-character pattern. -/
theorem extractVideoIdFromURL_spec (u : URL) :
    (stripWWW u.hostname = "youtu.be" →
      extractVideoIdFromURL u =
        (if isVideoId (((pathSegs u.pathname).get? 0).getD "") then
          some (((pathSegs u.pathname).get? 0).getD "")
         else none)) ∧
    (stripWWW u.hostname ≠ "youtu.be" →
      strEndsWith (stripWWW u.hostname) "youtube.com" = true →
      (∀ v, spGet u.searchParams "v" = some v → isVideoId v = true →
        extractVideoIdFromURL u = some v) ∧
      ((∀ v, spGet u.searchParams "v" = some v → isVideoId v = false) →
        extractVideoIdFromURL u =
          (if (((pathSegs u.pathname).get? 0).getD "" == "shorts" ||
               ((pathSegs u.pathname).get? 0).getD "" == "embed") &&
              isVideoId (((pathSegs u.pathname).get? 1).getD "") then
            some (((pathSegs u.pathname).get? 1).getD "")
           else none))) ∧
    (stripWWW u.hostname ≠ "youtu.be" →
      strEndsWith (stripWWW u.hostname) "youtube.com" = false →
      extractVideoIdFromURL u = none) ∧
    (∀ s, extractVideoIdFromURL u = some s → isVideoId s = true) := by
  refine ⟨?_, ?_, ?_, ?_⟩
  · intro h1
    simp only [extractVideoIdFromURL]
    rw [if_pos h1]
  · intro h1 h2
    constructor
    · intro v hv hvid
      have hvne : v ≠ "" := isVideoId_ne_empty v hvid
      simp only [extractVideoIdFromURL]
      rw [if_neg h1, if_pos (by rw [h2])]
      simp [hv, hvid, hvne]
    · intro hall
      simp only [extractVideoIdFromURL]
      rw [if_neg h1, if_pos (by rw [h2])]
      cases hv : spGet u.searchParams "v" with
      | none => simp [ytPathBranch_eq]
      | some v => simp [hall v hv, ytPathBranch_eq]
  · intro h1 h2
    simp only [extractVideoIdFromURL]
    rw [if_neg h1, if_neg (by rw [h2]; exact Bool.false_ne_true)]
  · intro s hs
    simp only [extractVideoIdFromURL] at hs
    split at hs
    · split at hs
      case isTrue h2 =>
        obtain rfl := Option.some.inj hs
        exact h2
      case isFalse => exact absurd hs (by simp)
    · split at hs
      · split at hs
        case h_1 v hv =>
          split at hs
          case isTrue hb =>
            obtain rfl := Option.some.inj hs
            exact ((Bool.and_eq_true _ _).mp hb).2
          case isFalse => exact ytPathBranch_valid u s hs
        case h_2 => exact ytPathBranch_valid u s hs
      · exact absurd hs (by simp)

/-- Claim C1 witness: the specification theorem evaluated at the concrete
watch URL `https://www.youtube.com/watch?v=dQw4w9WgXcQ`. -/
theorem extractVideoIdFromURL_spec_w :
    stripWWW "www.youtube.com" ≠ "youtu.be" ∧
    strEndsWith (stripWWW "www.youtube.com") "youtube.com" = true ∧
    extractVideoIdFromURL (URL.mk "www.youtube.com" "/watch" [("v", "dQw4w9WgXcQ")]) =
      some "dQw4w9WgXcQ" :=
  ⟨by decide, by decide,
    ((extractVideoIdFromURL_spec
        (URL.mk "www.youtube.com" "/watch" [("v", "dQw4w9WgXcQ")])).2.1
      (by decide) (by decide)).1 "dQw4w9WgXcQ" rfl (by decide)⟩

end TubeKit
